import Mathlib

/-!
# Mic Buddy — verification of the connection/poll loop and the presentation engine

Shallow embedding of the core of `src/mic_buddy.py`:

* `OBSManager` — the connection manager: host probing, connect/disconnect
  lifecycle, per-input mute polling and aggregate-state derivation
  (`_connect`, `_disconnect`, `_poll_mute`, and one iteration of `_loop`).
* `OverlayWindow` — the presentation engine: the animation step `_animate`,
  `show`/`hide`, `set_state`, and the colour interpolation `_lerp_colour`.
* `MicBuddyApp._on_connection_change` — the coordinator's connectivity handler.

Side effects (WebSocket I/O, tkinter drawing) are modelled as explicit state
passing plus a list of emitted signals; Python floats are modelled as exact
rationals; fallible protocol calls return `Except`.
-/

/-- A single entry of the OBS input list, as consumed by `_poll_mute`:
`inp.get("inputKind", "")` and `inp.get("inputName", "")` read optional
fields, so both fields are `Option String` (`none` models an absent or
`None`-valued key). -/
structure ObsInput where
  inputName : Option String
  inputKind : Option String
deriving Repr, DecidableEq

/-- Python substring containment `pat in s`, on explicit character lists:
true iff `pat` occurs contiguously inside `s`. -/
def containsSub (pat : List Char) : List Char → Bool
  | [] => pat.isEmpty
  | c :: rest => List.isPrefixOf pat (c :: rest) || containsSub pat rest

/-- The fixed allow-list of kind markers from `_poll_mute` (lines 134-137):
common audio-input source types in OBS. -/
def micKindMarkers : List String :=
  ["wasapi_input", "pulse_input", "coreaudio_input",
   "alsa_input", "jack_input", "audio_input"]

/-- `kind = inp.get("inputKind", "") or ""`: an absent or null kind becomes
the empty string. -/
def kindOf (inp : ObsInput) : String := inp.inputKind.getD ""

/-- `name = inp.get("inputName", "")`. -/
def nameOf (inp : ObsInput) : String := inp.inputName.getD ""

/-- The filter of `_poll_mute` lines 131-138: an input is kept iff its kind
string contains one of the six markers. -/
def isMicInput (inp : ObsInput) : Bool :=
  micKindMarkers.any (fun m => containsSub m.data (kindOf inp).data)

/-- One open protocol session, modelled by the responses its two consumed
requests produce: `get_input_list` and `get_input_mute(name)`.  An `error`
models the request raising an exception. -/
structure Session where
  inputList : Except Unit (List ObsInput)
  inputMute : String → Except Unit Bool

/-- The two callbacks the manager fires: `_on_conn(connected)` and
`_on_state(all_live)`. -/
inductive Signal where
  | conn (connected : Bool)
  | state (allLive : Bool)
deriving Repr, DecidableEq

/-- The mutable fields of `OBSManager` used by the loop, plus the
`was_obs_running` local of `_loop` (it survives across iterations, so it is
part of the per-tick state). -/
structure ManagerState where
  ws : Option Session
  connected : Bool
  wasObsRunning : Bool

namespace OBSManager

/-- The effective mute flag the loop body of `_poll_mute` computes for one
input: the response of `get_input_mute`, with a failing request treated as
muted (`except Exception: muted = True`, lines 150-151). -/
def effMuted (s : Session) (inp : ObsInput) : Bool :=
  match s.inputMute (nameOf inp) with
  | .ok m => m
  | .error _ => true

/-- The `for inp in mic_inputs` loop of `_poll_mute` (lines 144-154):
starts from `all_live = True` and breaks to `False` on the first input whose
effective mute flag is set. -/
def pollLoop (s : Session) : List ObsInput → Bool
  | [] => true
  | inp :: rest => if effMuted s inp then false else pollLoop s rest

/-- The aggregate derivation of `_poll_mute` on a successfully returned
input list: filter to mic-kind inputs, empty means muted (fail-safe,
lines 140-142), otherwise the conjunction computed by `pollLoop`. -/
def aggregateOf (s : Session) (inputs : List ObsInput) : Bool :=
  let micInputs := inputs.filter isMicInput
  if micInputs.isEmpty then false else pollLoop s micInputs

/-- `_disconnect` (lines 107-120): clears the handle and the connected flag,
then always fires `_on_conn(False)`. -/
def disconnect (st : ManagerState) : ManagerState × List Signal :=
  ({ st with connected := false, ws := none }, [Signal.conn false])

/-- `_connect` (lines 96-105), with the `obsws` module present: the
handshake either yields a session (then `_on_conn(True)` fires) or raises
(then the handle and flag are cleared and nothing is emitted). -/
def connect (st : ManagerState) (handshake : Option Session) :
    ManagerState × List Signal :=
  match handshake with
  | some s => ({ st with ws := some s, connected := true }, [Signal.conn true])
  | none => ({ st with ws := none, connected := false }, [])

/-- `_poll_mute` (lines 122-160) including its effect on the manager state:
without a handle it returns `None`; a failure of `get_input_list` is caught
by the outer handler, which calls `_disconnect` and returns `None`;
otherwise the aggregate is returned.  Result: (new state, returned value,
emitted signals). -/
def poll_mute (st : ManagerState) : ManagerState × Option Bool × List Signal :=
  match st.ws with
  | none => (st, none, [])
  | some s =>
    match s.inputList with
    | .error _ =>
      let d := disconnect st
      (d.1, none, d.2)
    | .ok inputs => (st, some (aggregateOf s inputs), [])

/-- The per-tick inputs the environment supplies to one iteration of
`_loop`: the host-presence probe, and the handshake outcomes of the (up to
two) `_connect` attempts the iteration can make. -/
structure TickInput where
  obsUp : Bool
  handshake1 : Option Session
  handshake2 : Option Session

/-- Result of one loop iteration.  `opens` is ghost instrumentation: for
each `_connect` call made during the tick, it records whether a session
handle was already held at the moment of the call. -/
structure TickOutput where
  state : ManagerState
  signals : List Signal
  opens : List Bool

/-- One iteration of the `while self._running` body of `_loop`
(lines 162-187): reconcile connect/disconnect against host presence, fire
the edge-triggered `_on_conn(False)`, retry `_connect` when OBS just
appeared, update `was_obs_running`, and poll (emitting the aggregate via
`_on_state` when the poll returned a value). -/
def tick (st : ManagerState) (inp : TickInput) : TickOutput :=
  let a : ManagerState × List Signal × List Bool :=
    if inp.obsUp && !st.connected then
      let c := connect st inp.handshake1
      (c.1, c.2, [st.ws.isSome])
    else if !inp.obsUp && st.connected then
      let d := disconnect st
      (d.1, d.2, [])
    else (st, [], [])
  let st1 := a.1
  let sigs2 : List Signal :=
    if !inp.obsUp && st.wasObsRunning then [Signal.conn false] else []
  let b : ManagerState × List Signal × List Bool :=
    if inp.obsUp && !st.wasObsRunning && !st1.connected then
      let c := connect st1 inp.handshake2
      (c.1, c.2, [st1.ws.isSome])
    else (st1, [], [])
  let st3 : ManagerState := { b.1 with wasObsRunning := inp.obsUp }
  let p : ManagerState × Option Bool × List Signal :=
    if st3.connected then poll_mute st3 else (st3, none, [])
  let stateSigs : List Signal :=
    match p.2.1 with
    | some v => [Signal.state v]
    | none => []
  { state := p.1,
    signals := a.2.1 ++ sigs2 ++ b.2.1 ++ p.2.2 ++ stateSigs,
    opens := a.2.2 ++ b.2.2 }

/-- Run the loop over a list of per-tick environment inputs, collecting the
ghost open-records of every tick. -/
def runLoop (st : ManagerState) : List TickInput → ManagerState × List Bool
  | [] => (st, [])
  | i :: rest =>
    let o := tick st i
    let r := runLoop o.state rest
    (r.1, o.opens ++ r.2)

/-- The manager's starting state (`__init__`, lines 64-71): no handle, not
connected, and `was_obs_running = False` at the top of `_loop`. -/
def managerInit : ManagerState :=
  { ws := none, connected := false, wasObsRunning := false }

end OBSManager

/-- The mutable presentation-state fields of `OverlayWindow` (`__init__`,
lines 201-207), with Python floats modelled as exact rationals. -/
structure OverlayState where
  visible : Bool
  allLive : Bool
  displayLive : ℚ
  targetLive : ℚ
  breatheT : ℚ
  dragStartX : ℤ
  dragStartY : ℤ
deriving Repr, DecidableEq

namespace OverlayWindow

/-- `ANIM_FPS = 30` (line 195). -/
def ANIM_FPS : ℚ := 30

/-- `dt = 1.0 / self.ANIM_FPS` (line 407). -/
def animDt : ℚ := 1 / ANIM_FPS

/-- `fade_speed = 3.0  # per second` (line 410). -/
def fade_speed : ℚ := 3

/-- The per-frame chase step `fade_speed * dt` (line 412). -/
def fadeStep : ℚ := fade_speed * animDt

/-- `show` (lines 245-250): a no-op when already visible, otherwise sets
the visible flag (and re-raises the window, a pure display effect). -/
def showOverlay (st : OverlayState) : OverlayState :=
  if !st.visible then { st with visible := true } else st

/-- `hide` (lines 252-255): a no-op when already hidden, otherwise clears
the visible flag and withdraws the window. -/
def hide (st : OverlayState) : OverlayState :=
  if st.visible then { st with visible := false } else st

/-- `set_state` (lines 257-259): stores the aggregate flag and snaps the
target level to 1.0 (live) or 0.0 (muted). -/
def set_state (st : OverlayState) (all_live : Bool) : OverlayState :=
  { st with allLive := all_live, targetLive := if all_live then 1 else 0 }

/-- The state effect of one `_animate` frame (lines 406-423): chase the
target by at most `fade_speed * dt` (snapping when closer than one step),
advance the breathe phase by `dt` unconditionally, and redraw only when
visible (drawing touches no state field). -/
def animate (st : OverlayState) : OverlayState :=
  let dt := animDt
  let diff := st.targetLive - st.displayLive
  let step := fade_speed * dt
  let d2 : ℚ :=
    if |diff| < step then st.targetLive
    else if diff > 0 then st.displayLive + step else st.displayLive - step
  { st with displayLive := d2, breatheT := st.breatheT + dt }

/-- Hexadecimal digit value as accepted by Python `int(_, 16)`:
`0`-`9`, `a`-`f` and `A`-`F`. -/
def hexVal (c : Char) : Option Nat :=
  if 48 ≤ c.toNat ∧ c.toNat ≤ 57 then some (c.toNat - 48)
  else if 97 ≤ c.toNat ∧ c.toNat ≤ 102 then some (c.toNat - 87)
  else if 65 ≤ c.toNat ∧ c.toNat ≤ 70 then some (c.toNat - 55)
  else none

/-- `int(chunk, 16)` applied to a two-character slice `s[i:i+2]`.  Such a
slice has at most two characters; `int` parses one or two hex digits and
raises on an empty string. -/
def parseHexPair : List Char → Option Nat
  | [a, b] =>
    match hexVal a, hexVal b with
    | some x, some y => some (16 * x + y)
    | _, _ => none
  | [a] => hexVal a
  | _ => none

/-- The three channel reads of `_lerp_colour` (lines 298-299):
`int(c[1:3], 16), int(c[3:5], 16), int(c[5:7], 16)`.  The character at
index 0 is never examined. -/
def parseColour (s : String) : Option (Nat × Nat × Nat) :=
  match parseHexPair ((s.data.drop 1).take 2),
        parseHexPair ((s.data.drop 3).take 2),
        parseHexPair ((s.data.drop 5).take 2) with
  | some r, some g, some b => some (r, g, b)
  | _, _, _ => none

/-- Python `int(x)` on a rational value: truncation toward zero. -/
def pyInt (x : ℚ) : ℤ := if 0 ≤ x then ⌊x⌋ else ⌈x⌉

/-- One channel of `_lerp_colour` (lines 300-302):
`int(v1 + (v2 - v1) * t)`. -/
def lerpChannel (a b : Nat) (t : ℚ) : ℤ :=
  pyInt ((a : ℚ) + ((b : ℚ) - (a : ℚ)) * t)

/-- One lowercase hex digit, as produced by the `x` format code. -/
def hexChar (d : Nat) : Char :=
  if d < 10 then Char.ofNat (48 + d) else Char.ofNat (87 + d)

/-- `f"{v:02x}"` for the channel values arising here (0 ≤ v < 256): exactly
two lowercase hex digits. -/
def hex2 (n : Nat) : List Char := [hexChar (n / 16), hexChar (n % 16)]

/-- The output format of `_lerp_colour` (line 303):
`f"#{r:02x}{g:02x}{b:02x}"`. -/
def canonHex (r g b : Nat) : String :=
  ⟨'#' :: (hex2 r ++ hex2 g ++ hex2 b)⟩

/-- `_lerp_colour` (lines 295-303).  A malformed colour string makes the
`int` conversions raise, modelled by `none`; `.toNat` is exact for the
channel values arising from interpolation factors in `[0, 1]`, which are
never negative. -/
def lerp_colour (c1 c2 : String) (t : ℚ) : Option String :=
  match parseColour c1, parseColour c2 with
  | some (r1, g1, b1), some (r2, g2, b2) =>
    some (canonHex (lerpChannel r1 r2 t).toNat (lerpChannel g1 g2 t).toNat
      (lerpChannel b1 b2 t).toNat)
  | _, _ => none

end OverlayWindow

/-- `PINK = "#FF69B4"` (line 30). -/
def PINK : String := "#FF69B4"

/-- `PURPLE = "#9B59B6"` (line 32). -/
def PURPLE : String := "#9B59B6"

/-- The events the overlay's state reacts to: one animation frame, and the
coordinator-scheduled `show`/`hide` calls. -/
inductive OverlayEvent where
  | animTick
  | showEv
  | hideEv
deriving Repr, DecidableEq, BEq

/-- Dispatch one overlay event. -/
def applyEvent (st : OverlayState) : OverlayEvent → OverlayState
  | .animTick => OverlayWindow.animate st
  | .showEv => OverlayWindow.showOverlay st
  | .hideEv => OverlayWindow.hide st

/-- Run a sequence of overlay events. -/
def runEvents (st : OverlayState) (es : List OverlayEvent) : OverlayState :=
  List.foldl applyEvent st es

/-- Number of animation frames in an event sequence. -/
def tickCount (es : List OverlayEvent) : Nat :=
  List.countP (fun e => e == OverlayEvent.animTick) es

/-- The `MicBuddyApp` fields touched by the connectivity callback. -/
structure AppState where
  allLive : Bool
  connected : Bool
  overlay : OverlayState
deriving Repr, DecidableEq

namespace MicBuddyApp

/-- `_on_connection_change` (lines 471-481): records the flag and schedules
`overlay.show` on connectivity true, `overlay.hide` on false (the tray-menu
rebuild touches no modelled state). -/
def on_connection_change (st : AppState) (connected : Bool) : AppState :=
  { st with connected := connected,
            overlay := if connected then OverlayWindow.showOverlay st.overlay
                       else OverlayWindow.hide st.overlay }

end MicBuddyApp

/-! ## Concrete fixtures used by witnesses and counterexamples -/

/-- A microphone-kind input (its kind contains the marker `wasapi_input`). -/
def micOnly : ObsInput :=
  { inputName := some "Mic1", inputKind := some "wasapi_input_capture" }

/-- A non-microphone input. -/
def deskInput : ObsInput :=
  { inputName := some "Desk", inputKind := some "monitor_capture" }

/-- A session whose input list succeeds but whose every mute query raises. -/
def failingSession : Session :=
  { inputList := Except.ok [micOnly], inputMute := fun _ => Except.error () }

/-- A connected manager holding `failingSession`. -/
def connectedState : ManagerState :=
  { ws := some failingSession, connected := true, wasObsRunning := true }

/-- A mute oracle reporting every input unmuted. -/
def liveMute : String → Except Unit Bool := fun _ => Except.ok false

/-- A session with one mic and one non-mic input, all queries unmuted. -/
def liveSession : Session :=
  { inputList := Except.ok [micOnly, deskInput], inputMute := liveMute }

/-- `liveSession` with the input list permuted. -/
def permSession : Session :=
  { inputList := Except.ok [deskInput, micOnly], inputMute := liveMute }

/-- A connected manager holding `liveSession`. -/
def liveState : ManagerState :=
  { ws := some liveSession, connected := true, wasObsRunning := true }

/-- A connected manager holding `permSession`. -/
def permState : ManagerState :=
  { ws := some permSession, connected := true, wasObsRunning := true }

/-- A session whose input-list request raises a transport fault. -/
def faultSession : Session :=
  { inputList := Except.error (), inputMute := liveMute }

/-- A connected manager holding `faultSession`. -/
def faultState : ManagerState :=
  { ws := some faultSession, connected := true, wasObsRunning := true }

/-- A presentation state halfway through a fade toward live. -/
def sampleOverlay : OverlayState :=
  { visible := false, allLive := false, displayLive := 1/2, targetLive := 1,
    breatheT := 0, dragStartX := 0, dragStartY := 0 }

/-- An app state whose overlay is hidden. -/
def sampleApp : AppState :=
  { allLive := false, connected := false, overlay := sampleOverlay }

/-! ## Substring and poll-loop lemmas -/

theorem containsSub_iff (pat s : List Char) :
    containsSub pat s = true ↔ ∃ l r : List Char, s = l ++ (pat ++ r) := by
  induction s with
  | nil =>
    rw [containsSub, List.isEmpty_iff]
    constructor
    · rintro rfl
      exact ⟨[], [], rfl⟩
    · rintro ⟨l, r, h⟩
      rcases List.append_eq_nil.mp h.symm with ⟨rfl, h2⟩
      exact (List.append_eq_nil.mp h2).1
  | cons c rest ih =>
    rw [containsSub, Bool.or_eq_true, List.isPrefixOf_iff_prefix, ih]
    constructor
    · rintro (⟨t, ht⟩ | ⟨l, r, rfl⟩)
      · exact ⟨[], t, by simpa using ht.symm⟩
      · exact ⟨c :: l, r, rfl⟩
    · rintro ⟨l, r, h⟩
      cases l with
      | nil => exact Or.inl ⟨r, by simpa using h.symm⟩
      | cons a l2 =>
        rw [List.cons_append, List.cons.injEq] at h
        exact Or.inr ⟨l2, r, h.2⟩

theorem pollLoop_eq_all (s : Session) (l : List ObsInput) :
    OBSManager.pollLoop s l = l.all (fun inp => !OBSManager.effMuted s inp) := by
  induction l with
  | nil => rfl
  | cons inp rest ih =>
    rw [OBSManager.pollLoop, List.all_cons, ih]
    cases h : OBSManager.effMuted s inp <;> simp [h]

theorem aggregateOf_eq (s : Session) (l : List ObsInput) :
    OBSManager.aggregateOf s l =
      (!(l.filter isMicInput).isEmpty &&
        (l.filter isMicInput).all (fun inp => !OBSManager.effMuted s inp)) := by
  show (if (l.filter isMicInput).isEmpty then false
        else OBSManager.pollLoop s (l.filter isMicInput)) = _
  cases h : (l.filter isMicInput).isEmpty <;>
    simp [h, pollLoop_eq_all]

/-! ## C9 — microphone-kind classification -/

/-- C9: an enumerated input is classified as a microphone-kind input iff its
kind string contains (as a contiguous substring) at least one of the six
fixed markers of `micKindMarkers`; an input whose kind field is absent or
null gets the empty-string kind and is never classified as a microphone. -/
theorem mic_kind_classification (inp : ObsInput) :
    (isMicInput inp = true ↔
      ∃ m ∈ micKindMarkers,
        ∃ l r : List Char, (kindOf inp).data = l ++ (m.data ++ r))
    ∧ (inp.inputKind = none → kindOf inp = "" ∧ isMicInput inp = false) := by
  constructor
  · rw [isMicInput, List.any_eq_true]
    constructor
    · rintro ⟨m, hm, hc⟩
      exact ⟨m, hm, (containsSub_iff _ _).mp hc⟩
    · rintro ⟨m, hm, hsub⟩
      exact ⟨m, hm, (containsSub_iff _ _).mpr hsub⟩
  · intro h
    have hk : kindOf inp = "" := by rw [kindOf, h]; rfl
    refine ⟨hk, ?_⟩
    rw [isMicInput, hk]
    decide

/-- Witness for C9 at a concrete input with an absent kind field. -/
theorem mic_kind_classification_witness :
    kindOf { inputName := some "Desk", inputKind := none } = ""
    ∧ isMicInput { inputName := some "Desk", inputKind := none } = false :=
  (mic_kind_classification { inputName := some "Desk", inputKind := none }).2 rfl

/-! ## C1 — a failing mute query does NOT fail the poll -/

/-- C1 counterexample: a connected session with exactly one microphone-kind
input whose mute query raises.  The claim says the poll must fail (return no
aggregate) and tear the connection down; instead `_poll_mute` treats the
input as muted, returns the aggregate `False`, leaves the connection alive
and emits no connectivity signal. -/
theorem mute_query_failure_not_poll_failure :
    failingSession.inputMute "Mic1" = Except.error ()
    ∧ List.filter isMicInput [micOnly] = [micOnly]
    ∧ (OBSManager.poll_mute connectedState).2.1 = some false
    ∧ (OBSManager.poll_mute connectedState).1.connected = true
    ∧ (OBSManager.poll_mute connectedState).1.ws.isSome = true
    ∧ (OBSManager.poll_mute connectedState).2.2 = [] :=
  ⟨rfl, by decide, by decide, rfl, rfl, rfl⟩

/-- C1 amended: if the mute-flag query for any filtered microphone input
fails, that input is treated as muted; the poll still succeeds, returning
the aggregate `false` for that tick, with the connection kept and no signal
emitted.  (Only a failure of the input-list request itself is a transport
fault.)  This holds for every input list and every position of the failing
input. -/
theorem mute_query_failure_treated_as_muted (st : ManagerState) (s : Session)
    (l : List ObsInput) (inp : ObsInput)
    (hws : st.ws = some s) (hl : s.inputList = Except.ok l)
    (hmem : inp ∈ l.filter isMicInput)
    (hfail : s.inputMute (nameOf inp) = Except.error ()) :
    OBSManager.poll_mute st = (st, some false, []) := by
  have hmut : OBSManager.effMuted s inp = true := by
    rw [OBSManager.effMuted, hfail]
  have hne : (l.filter isMicInput).isEmpty = false := by
    cases h : l.filter isMicInput with
    | nil => rw [h] at hmem; cases hmem
    | cons a t => rfl
  have hagg : OBSManager.aggregateOf s l = false := by
    rw [aggregateOf_eq, hne]
    have : (l.filter isMicInput).all (fun i => !OBSManager.effMuted s i) = false := by
      rw [List.all_eq_false]
      exact ⟨inp, hmem, by rw [hmut]; decide⟩
    rw [this]
    rfl
  simp only [OBSManager.poll_mute, hws, hl, hagg]

/-- Witness for C1's amended theorem at the concrete failing session. -/
theorem mute_query_failure_treated_as_muted_witness :
    OBSManager.poll_mute connectedState = (connectedState, some false, []) :=
  mute_query_failure_treated_as_muted connectedState failingSession [micOnly]
    micOnly rfl rfl (by decide) rfl

/-! ## C2 — the aggregate is a pure, order-insensitive conjunction -/

/-- C2: for every input list returned by the input-list request (with every
mic-input mute query succeeding), the poll returns aggregate `true` iff the
sublist of microphone-kind inputs is non-empty and every one of them
reports unmuted; it returns `false` for an empty microphone sublist; and
the result is invariant under any permutation of the input list. -/
theorem poll_aggregate_correct (s s2 : Session) (l l2 : List ObsInput)
    (st st2 : ManagerState)
    (hws : st.ws = some s) (hl : s.inputList = Except.ok l)
    (hws2 : st2.ws = some s2) (hl2 : s2.inputList = Except.ok l2)
    (hmute : s2.inputMute = s.inputMute) (hperm : l.Perm l2)
    (hok : ∀ inp ∈ l.filter isMicInput,
      ∃ b, s.inputMute (nameOf inp) = Except.ok b) :
    ((OBSManager.poll_mute st).2.1 = some true ↔
      (l.filter isMicInput ≠ [] ∧
        ∀ inp ∈ l.filter isMicInput,
          s.inputMute (nameOf inp) = Except.ok false))
    ∧ (l.filter isMicInput = [] → (OBSManager.poll_mute st).2.1 = some false)
    ∧ (OBSManager.poll_mute st2).2.1 = (OBSManager.poll_mute st).2.1 := by
  have hres : (OBSManager.poll_mute st).2.1 = some (OBSManager.aggregateOf s l) := by
    simp only [OBSManager.poll_mute, hws, hl]
  have hres2 : (OBSManager.poll_mute st2).2.1 = some (OBSManager.aggregateOf s2 l2) := by
    simp only [OBSManager.poll_mute, hws2, hl2]
  have heff : ∀ inp, OBSManager.effMuted s2 inp = OBSManager.effMuted s inp := by
    intro inp
    rw [OBSManager.effMuted, OBSManager.effMuted, hmute]
  refine ⟨?_, ?_, ?_⟩
  · rw [hres, aggregateOf_eq]
    rw [Option.some_inj, Bool.and_eq_true, Bool.not_eq_eq_eq_not, Bool.not_true,
      List.all_eq_true]
    constructor
    · rintro ⟨hne, hall⟩
      refine ⟨fun hnil => by rw [hnil] at hne; exact absurd hne (by decide), ?_⟩
      intro inp hmem
      obtain ⟨b, hb⟩ := hok inp hmem
      have := hall inp hmem
      rw [OBSManager.effMuted, hb] at this
      simp only [Bool.not_eq_true'] at this
      rw [hb, this]
    · rintro ⟨hne, hall⟩
      refine ⟨?_, ?_⟩
      · cases h : l.filter isMicInput with
        | nil => exact absurd h hne
        | cons a t => rfl
      · intro inp hmem
        have hb := hall inp hmem
        rw [OBSManager.effMuted, hb]
        rfl
  · intro hnil
    rw [hres, aggregateOf_eq, hnil]
    rfl
  · rw [hres, hres2, aggregateOf_eq, aggregateOf_eq]
    have hpf : (l.filter isMicInput).Perm (l2.filter isMicInput) :=
      hperm.filter isMicInput
    have hemp : (l2.filter isMicInput).isEmpty = (l.filter isMicInput).isEmpty := by
      rw [Bool.eq_iff_iff, List.isEmpty_iff, List.isEmpty_iff]
      constructor
      · intro h2
        rw [h2] at hpf
        exact hpf.eq_nil
      · intro h1
        rw [h1] at hpf
        exact hpf.symm.eq_nil
    have hall : (l2.filter isMicInput).all (fun inp => !OBSManager.effMuted s2 inp)
        = (l.filter isMicInput).all (fun inp => !OBSManager.effMuted s inp) := by
      rw [Bool.eq_iff_iff, List.all_eq_true, List.all_eq_true]
      constructor
      · intro h inp hmem
        have := h inp (hpf.mem_iff.mp hmem)
        rwa [heff] at this
      · intro h inp hmem
        rw [heff]
        exact h inp (hpf.mem_iff.mpr hmem)
    rw [hemp, hall]

/-- Witness for C2: a concrete live poll over one mic and one non-mic
input. -/
theorem poll_aggregate_correct_witness :
    (OBSManager.poll_mute liveState).2.1 = some true :=
  (poll_aggregate_correct liveSession permSession [micOnly, deskInput]
    [deskInput, micOnly] liveState permState rfl rfl rfl rfl rfl
    (List.Perm.swap deskInput micOnly []) (fun inp _ => ⟨false, rfl⟩)).1.mpr
    ⟨by decide, fun inp _ => rfl⟩

/-! ## C4 — transport fault on the input-list request tears the session down -/

/-- C4: when the input-list request raises a transport fault on a tick where
the manager is connected, the tick tears the connection down, emits exactly
`connectivity = false`, emits no aggregate-state value, and the next tick
(host still present, handshake succeeding) starts by re-emitting
`connectivity = true` from the reconnect attempt. -/
theorem transport_fault_teardown (st : ManagerState) (s s2 : Session)
    (hA hB hC : Option Session)
    (hconn : st.connected = true) (hws : st.ws = some s)
    (hfault : s.inputList = Except.error ()) :
    (OBSManager.tick st ⟨true, hA, hB⟩).state.connected = false
    ∧ (OBSManager.tick st ⟨true, hA, hB⟩).state.ws = none
    ∧ (OBSManager.tick st ⟨true, hA, hB⟩).signals = [Signal.conn false]
    ∧ (∀ v, Signal.state v ∉ (OBSManager.tick st ⟨true, hA, hB⟩).signals)
    ∧ (OBSManager.tick (OBSManager.tick st ⟨true, hA, hB⟩).state
        ⟨true, some s2, hC⟩).signals.head? = some (Signal.conn true) := by
  obtain ⟨ws0, conn0, was0⟩ := st
  obtain rfl : conn0 = true := hconn
  obtain rfl : ws0 = some s := hws
  refine ⟨?_, ?_, ?_, ?_, ?_⟩ <;>
    cases was0 <;>
      simp [OBSManager.tick, OBSManager.poll_mute, OBSManager.disconnect,
        OBSManager.connect, hfault]

/-- Witness for C4 at a concrete faulty session. -/
theorem transport_fault_teardown_witness :
    (OBSManager.tick faultState ⟨true, none, none⟩).signals = [Signal.conn false] :=
  (transport_fault_teardown faultState faultSession liveSession none none none
    rfl rfl rfl).2.2.1

/-! ## C8 — at most one live connection -/

/-- `poll_mute` preserves the handle/flag agreement. -/
theorem poll_mute_inv (st : ManagerState) (h : st.connected = st.ws.isSome) :
    (OBSManager.poll_mute st).1.connected = (OBSManager.poll_mute st).1.ws.isSome := by
  obtain ⟨ws0, conn0, was0⟩ := st
  cases ws0 with
  | none => exact h
  | some s =>
    cases hi : s.inputList with
    | error e => simp [OBSManager.poll_mute, OBSManager.disconnect, hi]
    | ok li => simpa [OBSManager.poll_mute, hi] using h

/-- One tick preserves the handle/flag agreement, and every `_connect` call
it makes happens while no handle is held. -/
theorem tick_inv (st : ManagerState) (i : OBSManager.TickInput)
    (h : st.connected = st.ws.isSome) :
    ((OBSManager.tick st i).state.connected
      = (OBSManager.tick st i).state.ws.isSome)
    ∧ ∀ b ∈ (OBSManager.tick st i).opens, b = false := by
  obtain ⟨ws0, conn0, was0⟩ := st
  obtain ⟨up, hs1, hs2⟩ := i
  cases ws0 with
  | none =>
    simp only [Option.isSome_none] at h
    subst h
    cases up with
    | false =>
      cases was0 <;>
        simp [OBSManager.tick, OBSManager.poll_mute, OBSManager.connect,
          OBSManager.disconnect]
    | true =>
      cases was0 <;> cases hs1 with
      | none =>
        cases hs2 with
        | none =>
          simp [OBSManager.tick, OBSManager.poll_mute, OBSManager.connect,
            OBSManager.disconnect]
        | some s2 =>
          cases hi : s2.inputList <;>
            simp [OBSManager.tick, OBSManager.poll_mute, OBSManager.connect,
              OBSManager.disconnect, hi]
      | some s1 =>
        cases hi : s1.inputList <;>
          simp [OBSManager.tick, OBSManager.poll_mute, OBSManager.connect,
            OBSManager.disconnect, hi]
  | some s =>
    simp only [Option.isSome_some] at h
    subst h
    cases up with
    | false =>
      cases was0 <;>
        simp [OBSManager.tick, OBSManager.poll_mute, OBSManager.connect,
          OBSManager.disconnect]
    | true =>
      cases was0 <;> cases hi : s.inputList <;>
        simp [OBSManager.tick, OBSManager.poll_mute, OBSManager.connect,
          OBSManager.disconnect, hi]

/-- C8: starting from the initial manager state, after any interleaving of
host-presence values, handshake outcomes and poll outcomes, the connected
flag agrees with whether a session handle is held (so teardown clears the
handle), and every session-open performed along the run happened while no
handle was held: at most one live connection exists at any time. -/
theorem at_most_one_connection (ins : List OBSManager.TickInput) :
    ((OBSManager.runLoop OBSManager.managerInit ins).1.connected
      = (OBSManager.runLoop OBSManager.managerInit ins).1.ws.isSome)
    ∧ ∀ b ∈ (OBSManager.runLoop OBSManager.managerInit ins).2, b = false := by
  have key : ∀ (ins2 : List OBSManager.TickInput) (st : ManagerState),
      st.connected = st.ws.isSome →
      ((OBSManager.runLoop st ins2).1.connected
        = (OBSManager.runLoop st ins2).1.ws.isSome)
      ∧ ∀ b ∈ (OBSManager.runLoop st ins2).2, b = false := by
    intro ins2
    induction ins2 with
    | nil =>
      intro st h
      exact ⟨h, by simp [OBSManager.runLoop]⟩
    | cons i rest ih =>
      intro st h
      obtain ⟨hinv, hopens⟩ := tick_inv st i h
      obtain ⟨hinv2, hopens2⟩ := ih (OBSManager.tick st i).state hinv
      refine ⟨hinv2, ?_⟩
      intro b hb
      rw [OBSManager.runLoop] at hb
      rcases List.mem_append.mp hb with h1 | h2
      · exact hopens b h1
      · exact hopens2 b h2
  exact key ins OBSManager.managerInit rfl

/-- Witness for C8 on a concrete two-tick run (successful handshake, then a
connected poll). -/
theorem at_most_one_connection_witness :
    ((OBSManager.runLoop OBSManager.managerInit
        [⟨true, some liveSession, none⟩, ⟨true, none, none⟩]).1.connected
      = (OBSManager.runLoop OBSManager.managerInit
        [⟨true, some liveSession, none⟩, ⟨true, none, none⟩]).1.ws.isSome)
    ∧ false ∈ (OBSManager.runLoop OBSManager.managerInit
        [⟨true, some liveSession, none⟩, ⟨true, none, none⟩]).2
    ∧ (false : Bool) = false :=
  ⟨(at_most_one_connection [⟨true, some liveSession, none⟩, ⟨true, none, none⟩]).1,
   by decide,
   (at_most_one_connection [⟨true, some liveSession, none⟩, ⟨true, none, none⟩]).2
     false (by decide)⟩

/-! ## C5 — set_state touches only the aggregate flag and the target level -/

/-- C5: `set_state` stores the aggregate flag and snaps the target level
(1.0 when live, 0.0 when muted), leaving the display level, breathe phase,
visibility and the drag bookkeeping unchanged, for every state and flag. -/
theorem set_state_frame (st : OverlayState) (b : Bool) :
    (OverlayWindow.set_state st b).allLive = b
    ∧ (OverlayWindow.set_state st b).targetLive = (if b then 1 else 0)
    ∧ (OverlayWindow.set_state st b).displayLive = st.displayLive
    ∧ (OverlayWindow.set_state st b).breatheT = st.breatheT
    ∧ (OverlayWindow.set_state st b).visible = st.visible
    ∧ (OverlayWindow.set_state st b).dragStartX = st.dragStartX
    ∧ (OverlayWindow.set_state st b).dragStartY = st.dragStartY :=
  ⟨rfl, rfl, rfl, rfl, rfl, rfl, rfl⟩

/-! ## C7 — connectivity handling drives visibility and is idempotent -/

/-- C7: the coordinator's connectivity handler makes the overlay visible on
`true` and hidden on `false`; delivering the same value twice equals
delivering it once, and `show` on a visible overlay and `hide` on a hidden
overlay are no-ops. -/
theorem connection_change_idempotent (st : AppState) (c : Bool) :
    (MicBuddyApp.on_connection_change st c).overlay.visible = c
    ∧ MicBuddyApp.on_connection_change (MicBuddyApp.on_connection_change st c) c
        = MicBuddyApp.on_connection_change st c
    ∧ (st.overlay.visible = true →
        OverlayWindow.showOverlay st.overlay = st.overlay)
    ∧ (st.overlay.visible = false →
        OverlayWindow.hide st.overlay = st.overlay) := by
  obtain ⟨al, co, ov⟩ := st
  obtain ⟨vis, al2, dl, tl, bt, dx, dy⟩ := ov
  cases c <;> cases vis <;>
    simp [MicBuddyApp.on_connection_change, OverlayWindow.showOverlay,
      OverlayWindow.hide]

/-- Witness for C7: hiding an already-hidden overlay is a no-op. -/
theorem connection_change_idempotent_witness :
    sampleApp.overlay.visible = false
    ∧ OverlayWindow.hide sampleApp.overlay = sampleApp.overlay :=
  ⟨rfl, (connection_change_idempotent sampleApp true).2.2.2 rfl⟩

/-! ## C6 — the breathe phase is independent of visibility history -/

theorem showOverlay_breatheT (st : OverlayState) :
    (OverlayWindow.showOverlay st).breatheT = st.breatheT := by
  rw [OverlayWindow.showOverlay]
  split <;> rfl

theorem hide_breatheT (st : OverlayState) :
    (OverlayWindow.hide st).breatheT = st.breatheT := by
  rw [OverlayWindow.hide]
  split <;> rfl

theorem animate_breatheT (st : OverlayState) :
    (OverlayWindow.animate st).breatheT = st.breatheT + OverlayWindow.animDt :=
  rfl

theorem runEvents_breatheT (es : List OverlayEvent) (st : OverlayState) :
    (runEvents st es).breatheT
      = st.breatheT + (tickCount es : ℚ) * OverlayWindow.animDt := by
  induction es generalizing st with
  | nil => simp [runEvents, tickCount]
  | cons e rest ih =>
    have hstep : runEvents st (e :: rest) = runEvents (applyEvent st e) rest := rfl
    rw [hstep, ih]
    cases e with
    | animTick =>
      rw [show applyEvent st OverlayEvent.animTick = OverlayWindow.animate st
        from rfl, animate_breatheT,
        show tickCount (OverlayEvent.animTick :: rest) = tickCount rest + 1
          from by simp [tickCount, List.countP_cons]; decide]
      push_cast
      ring
    | showEv =>
      rw [show applyEvent st OverlayEvent.showEv
        = OverlayWindow.showOverlay st from rfl, showOverlay_breatheT,
        show tickCount (OverlayEvent.showEv :: rest) = tickCount rest
          from by simp [tickCount, List.countP_cons]; decide]
    | hideEv =>
      rw [show applyEvent st OverlayEvent.hideEv
        = OverlayWindow.hide st from rfl, hide_breatheT,
        show tickCount (OverlayEvent.hideEv :: rest) = tickCount rest
          from by simp [tickCount, List.countP_cons]; decide]

/-- C6: the breathe-phase accumulator advances by `dt` on every animation
tick regardless of visibility, so its value after a run depends only on the
number of animation ticks: two runs with the same tick count but different
interleaved show/hide calls end with the identical phase. -/
theorem breathe_phase_visibility_independent (st : OverlayState)
    (es : List OverlayEvent) :
    ((runEvents st es).breatheT
      = st.breatheT + (tickCount es : ℚ) * OverlayWindow.animDt)
    ∧ ∀ es2, tickCount es2 = tickCount es →
        (runEvents st es2).breatheT = (runEvents st es).breatheT := by
  refine ⟨runEvents_breatheT es st, ?_⟩
  intro es2 hcount
  rw [runEvents_breatheT, runEvents_breatheT, hcount]

/-- Witness for C6: two concrete runs with two ticks each but different
show/hide interleavings end at the same phase. -/
theorem breathe_phase_visibility_independent_witness :
    tickCount [OverlayEvent.hideEv, OverlayEvent.animTick, OverlayEvent.animTick,
        OverlayEvent.hideEv]
      = tickCount [OverlayEvent.animTick, OverlayEvent.showEv,
        OverlayEvent.animTick]
    ∧ (runEvents sampleOverlay [OverlayEvent.hideEv, OverlayEvent.animTick,
        OverlayEvent.animTick, OverlayEvent.hideEv]).breatheT
      = (runEvents sampleOverlay [OverlayEvent.animTick, OverlayEvent.showEv,
        OverlayEvent.animTick]).breatheT :=
  ⟨by decide,
   (breathe_phase_visibility_independent sampleOverlay
     [OverlayEvent.animTick, OverlayEvent.showEv, OverlayEvent.animTick]).2
     [OverlayEvent.hideEv, OverlayEvent.animTick, OverlayEvent.animTick,
       OverlayEvent.hideEv] (by decide)⟩

/-! ## C3 — the display level chases the target without overshoot -/

theorem animate_targetLive (st : OverlayState) :
    (OverlayWindow.animate st).targetLive = st.targetLive := rfl

theorem iterate_animate_targetLive (st : OverlayState) (n : ℕ) :
    (OverlayWindow.animate^[n] st).targetLive = st.targetLive := by
  induction n with
  | zero => rfl
  | succ n ih => rw [Function.iterate_succ_apply', animate_targetLive, ih]

theorem fadeStep_pos : 0 < OverlayWindow.fadeStep := by
  norm_num [OverlayWindow.fadeStep, OverlayWindow.fade_speed,
    OverlayWindow.animDt, OverlayWindow.ANIM_FPS]

theorem animate_displayLive (st : OverlayState) :
    (OverlayWindow.animate st).displayLive =
      if |st.targetLive - st.displayLive| < OverlayWindow.fadeStep then
        st.targetLive
      else if st.targetLive - st.displayLive > 0 then
        st.displayLive + OverlayWindow.fadeStep
      else st.displayLive - OverlayWindow.fadeStep := rfl

/-- Closed form of the upward chase: while the display level starts at or
below the target, frame `n` shows `min (start + n·step) target`. -/
theorem chase_up (st : OverlayState) (h : st.displayLive ≤ st.targetLive)
    (n : ℕ) :
    (OverlayWindow.animate^[n] st).displayLive
      = min (st.displayLive + n * OverlayWindow.fadeStep) st.targetLive := by
  have hs := fadeStep_pos
  induction n with
  | zero =>
    rw [Function.iterate_zero_apply, Nat.cast_zero, zero_mul, add_zero,
      min_eq_left h]
  | succ n ih =>
    rw [Function.iterate_succ_apply', animate_displayLive, ih,
      iterate_animate_targetLive, Nat.cast_succ,
      show st.displayLive + (↑n + 1) * OverlayWindow.fadeStep
        = st.displayLive + ↑n * OverlayWindow.fadeStep + OverlayWindow.fadeStep
        from by ring]
    rcases le_total (st.displayLive + n * OverlayWindow.fadeStep) st.targetLive
      with hc | hc
    · rw [min_eq_left hc]
      by_cases hlt :
          |st.targetLive - (st.displayLive + n * OverlayWindow.fadeStep)|
            < OverlayWindow.fadeStep
      · rw [if_pos hlt, eq_comm]
        rw [abs_of_nonneg (by linarith)] at hlt
        exact min_eq_right (by linarith)
      · rw [if_neg hlt]
        rw [abs_of_nonneg (by linarith), not_lt] at hlt
        rw [if_pos (by linarith : st.targetLive
          - (st.displayLive + n * OverlayWindow.fadeStep) > 0), eq_comm]
        exact min_eq_left (by linarith)
    · rw [min_eq_right hc, sub_self, abs_zero, if_pos hs, eq_comm]
      exact min_eq_right (by linarith)

/-- Closed form of the downward chase. -/
theorem chase_down (st : OverlayState) (h : st.targetLive ≤ st.displayLive)
    (n : ℕ) :
    (OverlayWindow.animate^[n] st).displayLive
      = max (st.displayLive - n * OverlayWindow.fadeStep) st.targetLive := by
  have hs := fadeStep_pos
  induction n with
  | zero =>
    rw [Function.iterate_zero_apply, Nat.cast_zero, zero_mul, sub_zero,
      max_eq_left h]
  | succ n ih =>
    rw [Function.iterate_succ_apply', animate_displayLive, ih,
      iterate_animate_targetLive, Nat.cast_succ,
      show st.displayLive - (↑n + 1) * OverlayWindow.fadeStep
        = st.displayLive - ↑n * OverlayWindow.fadeStep - OverlayWindow.fadeStep
        from by ring]
    rcases le_total st.targetLive (st.displayLive - n * OverlayWindow.fadeStep)
      with hc | hc
    · rw [max_eq_left hc]
      by_cases hlt :
          |st.targetLive - (st.displayLive - n * OverlayWindow.fadeStep)|
            < OverlayWindow.fadeStep
      · rw [if_pos hlt, eq_comm]
        rw [abs_of_nonpos (by linarith)] at hlt
        exact max_eq_right (by linarith)
      · rw [if_neg hlt]
        rw [abs_of_nonpos (by linarith), not_lt] at hlt
        rw [if_neg (by linarith : ¬(st.targetLive
          - (st.displayLive - n * OverlayWindow.fadeStep) > 0)), eq_comm]
        exact max_eq_left (by linarith)
    · rw [max_eq_right hc, sub_self, abs_zero, if_pos hs, eq_comm]
      exact max_eq_right (by linarith)

/-- Single-frame step rule of `_animate`: snap when within one step of the
target, otherwise close the gap by exactly one step. -/
theorem animate_step_rule (st : OverlayState) :
    (|st.targetLive - st.displayLive| < OverlayWindow.fadeStep →
      (OverlayWindow.animate st).displayLive = st.targetLive)
    ∧ (OverlayWindow.fadeStep ≤ |st.targetLive - st.displayLive| →
      |st.targetLive - (OverlayWindow.animate st).displayLive|
        = |st.targetLive - st.displayLive| - OverlayWindow.fadeStep) := by
  constructor
  · intro hlt
    rw [animate_displayLive, if_pos hlt]
  · intro hge
    rw [animate_displayLive, if_neg (not_lt.mpr hge)]
    rcases lt_trichotomy (st.targetLive - st.displayLive) 0 with hneg | hzero | hpos
    · rw [if_neg (by linarith), abs_of_neg hneg]
      rw [abs_of_neg hneg] at hge
      rw [abs_of_nonpos (by linarith)]
      ring
    · rw [hzero, abs_zero] at hge
      exact absurd hge (not_le.mpr fadeStep_pos)
    · rw [if_pos hpos, abs_of_pos hpos]
      rw [abs_of_pos hpos] at hge
      rw [abs_of_nonneg (by linarith)]
      ring

/-- C3: from any display level in [0,1] and target in {0,1}, each `_animate`
frame moves the display level toward the target by exactly
`fadeStep = fade_speed * dt` unless it is within one step, in which case it
snaps to the target; while the target is held fixed the sequence is
monotone, never overshoots or leaves [0,1], and reaches the target within
`⌈|target - start| / fadeStep⌉` frames. -/
theorem display_chase_correct (st : OverlayState) (d0 t0 : ℚ)
    (hd : st.displayLive = d0) (ht : st.targetLive = t0)
    (h0 : 0 ≤ d0) (h1 : d0 ≤ 1) (htgt : t0 = 0 ∨ t0 = 1) :
    (∀ n : ℕ,
      (|t0 - (OverlayWindow.animate^[n] st).displayLive| < OverlayWindow.fadeStep →
        (OverlayWindow.animate^[n+1] st).displayLive = t0)
      ∧ (OverlayWindow.fadeStep ≤ |t0 - (OverlayWindow.animate^[n] st).displayLive| →
        |t0 - (OverlayWindow.animate^[n+1] st).displayLive|
          = |t0 - (OverlayWindow.animate^[n] st).displayLive|
            - OverlayWindow.fadeStep))
    ∧ (∀ n : ℕ, 0 ≤ (OverlayWindow.animate^[n] st).displayLive
        ∧ (OverlayWindow.animate^[n] st).displayLive ≤ 1
        ∧ min d0 t0 ≤ (OverlayWindow.animate^[n] st).displayLive
        ∧ (OverlayWindow.animate^[n] st).displayLive ≤ max d0 t0)
    ∧ (d0 ≤ t0 → ∀ m n : ℕ, m ≤ n →
        (OverlayWindow.animate^[m] st).displayLive
          ≤ (OverlayWindow.animate^[n] st).displayLive)
    ∧ (t0 ≤ d0 → ∀ m n : ℕ, m ≤ n →
        (OverlayWindow.animate^[n] st).displayLive
          ≤ (OverlayWindow.animate^[m] st).displayLive)
    ∧ (∀ n : ℕ, ⌈|t0 - d0| / OverlayWindow.fadeStep⌉ ≤ (n : ℤ) →
        (OverlayWindow.animate^[n] st).displayLive = t0) := by
  subst hd
  subst ht
  have hs := fadeStep_pos
  have ht01 : 0 ≤ st.targetLive ∧ st.targetLive ≤ 1 := by
    rcases htgt with h | h <;> rw [h] <;> norm_num
  refine ⟨?_, ?_, ?_, ?_, ?_⟩
  · intro n
    have hr := animate_step_rule (OverlayWindow.animate^[n] st)
    rw [iterate_animate_targetLive] at hr
    rw [Function.iterate_succ_apply']
    exact hr
  · intro n
    have hns : 0 ≤ (n : ℚ) * OverlayWindow.fadeStep :=
      mul_nonneg (Nat.cast_nonneg n) hs.le
    rcases le_total st.displayLive st.targetLive with hle | hle
    · rw [chase_up st hle n]
      refine ⟨le_min (add_nonneg h0 hns) ht01.1,
        le_trans (min_le_right _ _) ht01.2, ?_, ?_⟩
      · rw [min_eq_left hle]
        exact le_min (le_add_of_nonneg_right hns) hle
      · rw [max_eq_right hle]
        exact min_le_right _ _
    · rw [chase_down st hle n]
      refine ⟨le_trans ht01.1 (le_max_right _ _), ?_, ?_, ?_⟩
      · exact max_le (le_trans (sub_le_self _ hns) h1) ht01.2
      · rw [min_eq_right hle]
        exact le_max_right _ _
      · rw [max_eq_left hle]
        exact max_le (sub_le_self _ hns) hle
  · intro hle m n hmn
    rw [chase_up st hle m, chase_up st hle n]
    exact min_le_min (add_le_add_left
      (mul_le_mul_of_nonneg_right (Nat.cast_le.mpr hmn) hs.le) _) le_rfl
  · intro hle m n hmn
    rw [chase_down st hle m, chase_down st hle n]
    exact max_le_max (sub_le_sub_left
      (mul_le_mul_of_nonneg_right (Nat.cast_le.mpr hmn) hs.le) _) le_rfl
  · intro n hn
    have hn2 : |st.targetLive - st.displayLive| / OverlayWindow.fadeStep
        ≤ (n : ℚ) := by
      have := Int.ceil_le.mp hn
      exact_mod_cast this
    rw [div_le_iff₀ hs] at hn2
    rcases le_total st.displayLive st.targetLive with hle | hle
    · rw [chase_up st hle n]
      rw [abs_of_nonneg (by linarith)] at hn2
      exact min_eq_right (by linarith)
    · rw [chase_down st hle n]
      rw [abs_of_nonpos (by linarith)] at hn2
      exact max_eq_right (by linarith)

/-- Witness for C3: from display level 1/2 chasing target 1, the display
level reaches the target at frame 5 = ⌈(1/2)/(1/10)⌉. -/
theorem display_chase_correct_witness :
    ((0:ℚ) ≤ 1/2 ∧ ((1:ℚ)/2) ≤ 1 ∧ ((1:ℚ) = 0 ∨ (1:ℚ) = 1))
    ∧ (OverlayWindow.animate^[5] sampleOverlay).displayLive = 1 :=
  ⟨⟨by norm_num, by norm_num, Or.inr rfl⟩,
   (display_chase_correct sampleOverlay (1/2) 1 rfl rfl (by norm_num)
     (by norm_num) (Or.inr rfl)).2.2.2.2 5 (by
      rw [show |1 - (1:ℚ)/2| = 1/2 from by norm_num,
        show OverlayWindow.fadeStep = 1/10 from by
          norm_num [OverlayWindow.fadeStep, OverlayWindow.fade_speed,
            OverlayWindow.animDt, OverlayWindow.ANIM_FPS]]
      norm_num)⟩

/-! ## C10 — colour interpolation -/

theorem hexVal_le (c : Char) (v : Nat)
    (h : OverlayWindow.hexVal c = some v) : v ≤ 15 := by
  rw [OverlayWindow.hexVal] at h
  split_ifs at h with h1 h2 h3
  · injection h with h4
    omega
  · injection h with h4
    omega
  · injection h with h4
    omega

theorem parseHexPair_lt (l : List Char) (n : Nat)
    (h : OverlayWindow.parseHexPair l = some n) : n < 256 := by
  rcases l with _ | ⟨a, _ | ⟨b, _ | ⟨c, rest⟩⟩⟩
  · exact absurd h (by simp [OverlayWindow.parseHexPair])
  · have := hexVal_le a n (by simpa [OverlayWindow.parseHexPair] using h)
    omega
  · rcases ha : OverlayWindow.hexVal a with _ | x
    · rw [OverlayWindow.parseHexPair, ha] at h
      exact absurd h (by simp)
    · rcases hb : OverlayWindow.hexVal b with _ | y
      · rw [OverlayWindow.parseHexPair, ha, hb] at h
        exact absurd h (by simp)
      · rw [OverlayWindow.parseHexPair, ha, hb] at h
        injection h with h4
        have := hexVal_le a x ha
        have := hexVal_le b y hb
        omega
  · exact absurd h (by simp [OverlayWindow.parseHexPair])

theorem parseColour_lt (s : String) (r g b : Nat)
    (h : OverlayWindow.parseColour s = some (r, g, b)) :
    r < 256 ∧ g < 256 ∧ b < 256 := by
  rw [OverlayWindow.parseColour] at h
  rcases hr : OverlayWindow.parseHexPair ((s.data.drop 1).take 2) with _ | r2
  · rw [hr] at h
    exact absurd h (by simp)
  · rcases hg : OverlayWindow.parseHexPair ((s.data.drop 3).take 2) with _ | g2
    · rw [hr, hg] at h
      exact absurd h (by simp)
    · rcases hb : OverlayWindow.parseHexPair ((s.data.drop 5).take 2) with _ | b2
      · rw [hr, hg, hb] at h
        exact absurd h (by simp)
      · rw [hr, hg, hb] at h
        injection h with h4
        obtain ⟨rfl, rfl, rfl⟩ : r2 = r ∧ g2 = g ∧ b2 = b := by
          injection h4 with e1 e2
          injection e2 with e2 e3
          exact ⟨e1, e2, e3⟩
        exact ⟨parseHexPair_lt _ _ hr, parseHexPair_lt _ _ hg,
          parseHexPair_lt _ _ hb⟩

theorem hexVal_hexChar (d : Nat) (h : d < 16) :
    OverlayWindow.hexVal (OverlayWindow.hexChar d) = some d := by
  interval_cases d <;> decide

theorem parseHexPair_hex2 (n : Nat) (h : n < 256) :
    OverlayWindow.parseHexPair (OverlayWindow.hex2 n) = some n := by
  have h1 : n / 16 < 16 := by omega
  have h2 : n % 16 < 16 := by omega
  rw [OverlayWindow.hex2]
  simp only [OverlayWindow.parseHexPair, hexVal_hexChar _ h1, hexVal_hexChar _ h2]
  congr 1
  omega

theorem parse_canonHex (r g b : Nat) (hr : r < 256) (hg : g < 256)
    (hb : b < 256) :
    OverlayWindow.parseColour (OverlayWindow.canonHex r g b) = some (r, g, b) := by
  have e1 : (((OverlayWindow.canonHex r g b).data.drop 1).take 2)
      = OverlayWindow.hex2 r := rfl
  have e2 : (((OverlayWindow.canonHex r g b).data.drop 3).take 2)
      = OverlayWindow.hex2 g := rfl
  have e3 : (((OverlayWindow.canonHex r g b).data.drop 5).take 2)
      = OverlayWindow.hex2 b := rfl
  rw [OverlayWindow.parseColour, e1, e2, e3, parseHexPair_hex2 r hr,
    parseHexPair_hex2 g hg, parseHexPair_hex2 b hb]

theorem lerpChannel_zero (a b : Nat) :
    OverlayWindow.lerpChannel a b 0 = (a : ℤ) := by
  rw [OverlayWindow.lerpChannel, mul_zero, add_zero, OverlayWindow.pyInt,
    if_pos (Nat.cast_nonneg a), Int.floor_natCast]

theorem lerpChannel_one (a b : Nat) :
    OverlayWindow.lerpChannel a b 1 = (b : ℤ) := by
  rw [OverlayWindow.lerpChannel, mul_one,
    show (a : ℚ) + ((b : ℚ) - a) = (b : ℚ) from by ring, OverlayWindow.pyInt,
    if_pos (Nat.cast_nonneg b), Int.floor_natCast]

theorem lerpChannel_mem (a b : Nat) (t : ℚ) (ht0 : 0 ≤ t) (ht1 : t ≤ 1) :
    min a b ≤ (OverlayWindow.lerpChannel a b t).toNat
    ∧ (OverlayWindow.lerpChannel a b t).toNat ≤ max a b := by
  have hx : ((min a b : ℕ) : ℚ) ≤ (a : ℚ) + ((b : ℚ) - a) * t
      ∧ (a : ℚ) + ((b : ℚ) - a) * t ≤ ((max a b : ℕ) : ℚ) := by
    rcases le_total a b with hab | hab
    · have hab2 : (a : ℚ) ≤ b := Nat.cast_le.mpr hab
      rw [min_eq_left hab, max_eq_right hab]
      constructor
      · nlinarith [mul_nonneg (sub_nonneg.mpr hab2) ht0]
      · nlinarith [mul_nonneg (sub_nonneg.mpr hab2) (sub_nonneg.mpr ht1)]
    · have hab2 : (b : ℚ) ≤ a := Nat.cast_le.mpr hab
      rw [min_eq_right hab, max_eq_left hab]
      constructor
      · nlinarith [mul_nonneg (sub_nonneg.mpr hab2) (sub_nonneg.mpr ht1)]
      · nlinarith [mul_nonneg (sub_nonneg.mpr hab2) ht0]
  have hx0 : (0 : ℚ) ≤ (a : ℚ) + ((b : ℚ) - a) * t :=
    le_trans (by positivity) hx.1
  have hfl : OverlayWindow.lerpChannel a b t = ⌊(a : ℚ) + ((b : ℚ) - a) * t⌋ := by
    rw [OverlayWindow.lerpChannel, OverlayWindow.pyInt, if_pos hx0]
  constructor
  · rw [hfl]
    have hlo : ((min a b : ℕ) : ℤ) ≤ ⌊(a : ℚ) + ((b : ℚ) - a) * t⌋ := by
      rw [Int.le_floor]
      exact_mod_cast hx.1
    omega
  · rw [hfl]
    have hhi : ⌊(a : ℚ) + ((b : ℚ) - a) * t⌋ ≤ ((max a b : ℕ) : ℤ) := by
      have h2 := Int.floor_le_floor (α := ℚ) hx.2
      rwa [Int.floor_natCast] at h2
    omega

/-- C10 counterexample: at the program's own palette constants (which use
uppercase hex digits) the interpolation at factor 0 does not return the
first colour: `_lerp_colour` re-renders the channels in lowercase hex, so
`lerp(PURPLE, PINK, 0) = "#9b59b6" ≠ PURPLE = "#9B59B6"` as strings. -/
theorem lerp_colour_not_pointwise_identity :
    OverlayWindow.lerp_colour PURPLE PINK 0 = some "#9b59b6"
    ∧ "#9b59b6" ≠ PURPLE := by
  constructor
  · simp only [OverlayWindow.lerp_colour,
      show OverlayWindow.parseColour PURPLE = some (155, 89, 182) from by decide,
      show OverlayWindow.parseColour PINK = some (255, 105, 180) from by decide,
      lerpChannel_zero, Int.toNat_natCast]
    decide
  · decide

/-- C10 amended: for valid colour strings and any interpolation factor in
[0,1], `_lerp_colour` returns a valid 7-character "#rrggbb" string whose
channels lie between the corresponding input channels; at factor 0 (resp.
1) the result carries exactly the channels of the first (resp. second)
input, rendered canonically in lowercase hex — so the endpoint identities
of the claim hold up to hex-digit case (exactly, whenever the inputs are
lowercase). -/
theorem lerp_colour_bounds (c1 c2 : String) (r1 g1 b1 r2 g2 b2 : Nat) (t : ℚ)
    (hp1 : OverlayWindow.parseColour c1 = some (r1, g1, b1))
    (hp2 : OverlayWindow.parseColour c2 = some (r2, g2, b2))
    (ht0 : 0 ≤ t) (ht1 : t ≤ 1) :
    ∃ s : String,
      OverlayWindow.lerp_colour c1 c2 t = some s
      ∧ s.length = 7
      ∧ s.data.head? = some '#'
      ∧ (∃ r g b : Nat, OverlayWindow.parseColour s = some (r, g, b)
          ∧ min r1 r2 ≤ r ∧ r ≤ max r1 r2
          ∧ min g1 g2 ≤ g ∧ g ≤ max g1 g2
          ∧ min b1 b2 ≤ b ∧ b ≤ max b1 b2)
      ∧ (t = 0 → OverlayWindow.lerp_colour c1 c2 t
          = some (OverlayWindow.canonHex r1 g1 b1))
      ∧ (t = 1 → OverlayWindow.lerp_colour c1 c2 t
          = some (OverlayWindow.canonHex r2 g2 b2)) := by
  have hlc : OverlayWindow.lerp_colour c1 c2 t
      = some (OverlayWindow.canonHex (OverlayWindow.lerpChannel r1 r2 t).toNat
          (OverlayWindow.lerpChannel g1 g2 t).toNat
          (OverlayWindow.lerpChannel b1 b2 t).toNat) := by
    simp only [OverlayWindow.lerp_colour, hp1, hp2]
  obtain ⟨hr1, hg1, hb1⟩ := parseColour_lt c1 r1 g1 b1 hp1
  obtain ⟨hr2, hg2, hb2⟩ := parseColour_lt c2 r2 g2 b2 hp2
  obtain ⟨hrl, hrh⟩ := lerpChannel_mem r1 r2 t ht0 ht1
  obtain ⟨hgl, hgh⟩ := lerpChannel_mem g1 g2 t ht0 ht1
  obtain ⟨hbl, hbh⟩ := lerpChannel_mem b1 b2 t ht0 ht1
  refine ⟨_, hlc, rfl, rfl, ?_, ?_, ?_⟩
  · refine ⟨_, _, _, parse_canonHex _ _ _ ?_ ?_ ?_, hrl, hrh, hgl, hgh, hbl, hbh⟩
    · exact lt_of_le_of_lt hrh (max_lt hr1 hr2)
    · exact lt_of_le_of_lt hgh (max_lt hg1 hg2)
    · exact lt_of_le_of_lt hbh (max_lt hb1 hb2)
  · rintro rfl
    rw [hlc, lerpChannel_zero, lerpChannel_zero, lerpChannel_zero,
      Int.toNat_natCast, Int.toNat_natCast, Int.toNat_natCast]
  · rintro rfl
    rw [hlc, lerpChannel_one, lerpChannel_one, lerpChannel_one,
      Int.toNat_natCast, Int.toNat_natCast, Int.toNat_natCast]

/-- Witness for C10's amended theorem at two concrete lowercase colours and
factor 1/2. -/
theorem lerp_colour_bounds_witness :
    ∃ s : String,
      OverlayWindow.lerp_colour "#ff69b4" "#9b59b6" (1/2) = some s
      ∧ s.length = 7
      ∧ s.data.head? = some '#'
      ∧ (∃ r g b : Nat, OverlayWindow.parseColour s = some (r, g, b)
          ∧ min 255 155 ≤ r ∧ r ≤ max 255 155
          ∧ min 105 89 ≤ g ∧ g ≤ max 105 89
          ∧ min 180 182 ≤ b ∧ b ≤ max 180 182)
      ∧ ((1:ℚ)/2 = 0 → OverlayWindow.lerp_colour "#ff69b4" "#9b59b6" (1/2)
          = some (OverlayWindow.canonHex 255 105 180))
      ∧ ((1:ℚ)/2 = 1 → OverlayWindow.lerp_colour "#ff69b4" "#9b59b6" (1/2)
          = some (OverlayWindow.canonHex 155 89 182)) :=
  lerp_colour_bounds "#ff69b4" "#9b59b6" 255 105 180 155 89 182 (1/2)
    (by decide) (by decide) (by norm_num) (by norm_num)
